import Mathlib

/-!
Verification of the RAG pipeline of this repository (document chunking,
vector-database wrapper, web search and retrieval/generation orchestration).
Strings are modelled as `List Char`; remote services (embedding API, ChromaDB
query/add, Serper web search, chat completion) are modelled as explicit
parameters so that each code path of the Python source is a pure function.
-/

namespace RAG

/-- Whitespace test used by Python `str.strip` (the ASCII cases). -/
def isSpace (c : Char) : Bool := c = ' ' || c = '\t' || c = '\n' || c = '\r'

/-- Python `str.lstrip`: remove leading whitespace. -/
def lstrip (s : List Char) : List Char := s.dropWhile isSpace

/-- Python `str.rstrip`: remove trailing whitespace. -/
def rstrip (s : List Char) : List Char := (s.reverse.dropWhile isSpace).reverse

/-- Python `str.strip`: remove leading and trailing whitespace. -/
def strip (s : List Char) : List Char := rstrip (lstrip s)

/-- The `while` loop of `DocumentProcessor.chunk_text`
(src/RAG/document_processor.py lines 25-39).  One unit of fuel is one loop
iteration; `chunk_text` supplies `text.length` fuel, which suffices whenever
`overlap < chunk_size` (the unenforced precondition under which the Python
loop terminates). -/
def chunkLoop (text : List Char) (chunk_size overlap : Nat) :
    Nat → Nat → List (List Char)
  | 0, _ => []
  | fuel + 1, start =>
    if start < text.length then
      let chunk := strip ((text.drop start).take chunk_size)
      let rest := chunkLoop text chunk_size overlap fuel (start + (chunk_size - overlap))
      if chunk = [] then rest else chunk :: rest
    else []

/-- Model of `DocumentProcessor.chunk_text(text, chunk_size, overlap)`
(src/RAG/document_processor.py lines 10-41); the defaults are
`CHUNK_SIZE = 512` and `CHUNK_OVERLAP = 150` from src/RAG/config.py. -/
def chunk_text (text : List Char) (chunk_size : Nat := 512) (overlap : Nat := 150) :
    List (List Char) :=
  if strip text = [] then []
  else chunkLoop text chunk_size overlap text.length 0

theorem dropWhile_dropWhile (p : Char → Bool) (l : List Char) :
    (l.dropWhile p).dropWhile p = l.dropWhile p := by
  induction l with
  | nil => rfl
  | cons a t ih =>
    rw [List.dropWhile_cons]
    by_cases h : p a
    · simp [h, ih]
    · simp [h, List.dropWhile_cons]

theorem length_dropWhile_le (p : Char → Bool) (l : List Char) :
    (l.dropWhile p).length ≤ l.length := by
  induction l with
  | nil => simp
  | cons a t ih =>
    rw [List.dropWhile_cons]
    by_cases h : p a
    · simp only [h, if_true]
      exact Nat.le_trans ih (Nat.le_succ _)
    · simp [h]

theorem length_lstrip_le (s : List Char) : (lstrip s).length ≤ s.length :=
  length_dropWhile_le _ _

theorem length_rstrip_le (s : List Char) : (rstrip s).length ≤ s.length := by
  unfold rstrip
  rw [List.length_reverse]
  calc (s.reverse.dropWhile isSpace).length ≤ s.reverse.length := length_dropWhile_le _ _
    _ = s.length := List.length_reverse s

theorem length_strip_le (s : List Char) : (strip s).length ≤ s.length :=
  Nat.le_trans (length_rstrip_le _) (length_lstrip_le _)

theorem lstrip_lstrip (s : List Char) : lstrip (lstrip s) = lstrip s :=
  dropWhile_dropWhile _ _

theorem rstrip_rstrip (s : List Char) : rstrip (rstrip s) = rstrip s := by
  unfold rstrip
  rw [List.reverse_reverse, dropWhile_dropWhile]

theorem dropWhile_append_singleton (p : Char → Bool) (a : Char) (h : p a = false)
    (l : List Char) : (l ++ [a]).dropWhile p = l.dropWhile p ++ [a] := by
  induction l with
  | nil => simp [List.dropWhile_cons, h]
  | cons b t ih =>
    rw [List.cons_append, List.dropWhile_cons, List.dropWhile_cons]
    by_cases hb : p b
    · simp [hb, ih]
    · simp [hb]

theorem rstrip_cons_of_not_space (a : Char) (t : List Char) (h : isSpace a = false) :
    rstrip (a :: t) = a :: rstrip t := by
  unfold rstrip
  rw [List.reverse_cons, dropWhile_append_singleton _ _ h, List.reverse_append]
  simp

theorem head_not_space_of_lstripped (a : Char) (t : List Char)
    (h : lstrip (a :: t) = a :: t) : isSpace a = false := by
  by_contra hc
  have ha : isSpace a = true := by
    cases hsb : isSpace a
    · exact absurd hsb hc
    · rfl
  unfold lstrip at h
  rw [List.dropWhile_cons, ha, if_pos rfl] at h
  have := length_dropWhile_le isSpace t
  rw [h] at this
  simp at this

theorem lstrip_rstrip_of_lstripped (s : List Char) (h : lstrip s = s) :
    lstrip (rstrip s) = rstrip s := by
  cases s with
  | nil => rfl
  | cons a t =>
    have ha : isSpace a = false := head_not_space_of_lstripped a t h
    rw [rstrip_cons_of_not_space a t ha]
    unfold lstrip
    rw [List.dropWhile_cons, ha]
    simp

theorem strip_strip (s : List Char) : strip (strip s) = strip s := by
  unfold strip
  rw [lstrip_rstrip_of_lstripped (lstrip s) (lstrip_lstrip s), rstrip_rstrip]

theorem dropWhile_eq_self_of_none (p : Char → Bool) (l : List Char)
    (h : ∀ c ∈ l, p c = false) : l.dropWhile p = l := by
  induction l with
  | nil => rfl
  | cons a t ih =>
    rw [List.dropWhile_cons, h a (by simp)]
    simp

theorem strip_of_no_space (s : List Char) (h : ∀ c ∈ s, isSpace c = false) :
    strip s = s := by
  unfold strip lstrip rstrip
  rw [dropWhile_eq_self_of_none _ _ h,
    dropWhile_eq_self_of_none _ _ (fun c hc => h c (by simpa using hc)),
    List.reverse_reverse]

theorem dropWhile_eq_nil_of_all (p : Char → Bool) (l : List Char)
    (h : ∀ c ∈ l, p c = true) : l.dropWhile p = [] := by
  induction l with
  | nil => rfl
  | cons a t ih =>
    rw [List.dropWhile_cons, h a (by simp)]
    simp only [if_true]
    exact ih (fun c hc => h c (by simp [hc]))

theorem strip_of_all_space (s : List Char) (h : ∀ c ∈ s, isSpace c = true) :
    strip s = [] := by
  unfold strip lstrip
  rw [dropWhile_eq_nil_of_all _ _ h]
  rfl

/-- Concatenate a chunk sequence after removing the first `overlap` characters
of every chunk but the first (the reconstruction operation named by the
lossless-reassembly property of the spec). -/
def reassemble (overlap : Nat) : List (List Char) → List Char
  | [] => []
  | c :: cs => c ++ (cs.map (List.drop overlap)).flatten

theorem chunkLoop_of_ge (text : List Char) (C O : Nat) :
    ∀ fuel start, ¬ start < text.length → chunkLoop text C O fuel start = [] := by
  intro fuel start h
  cases fuel with
  | zero => rfl
  | succ f => rw [chunkLoop, if_neg h]

theorem chunkLoop_mem (text : List Char) (C O : Nat) :
    ∀ fuel start, ∀ c ∈ chunkLoop text C O fuel start,
      c ≠ [] ∧ strip c = c ∧ c.length ≤ C := by
  intro fuel
  induction fuel with
  | zero => intro start c hc; simp [chunkLoop] at hc
  | succ f ih =>
    intro start c hc
    rw [chunkLoop] at hc
    by_cases hs : start < text.length
    · rw [if_pos hs] at hc
      simp only at hc
      by_cases he : strip ((text.drop start).take C) = []
      · rw [if_pos he] at hc
        exact ih _ c hc
      · rw [if_neg he] at hc
        rcases List.mem_cons.mp hc with h | h
        · subst h
          refine ⟨he, strip_strip _, ?_⟩
          calc (strip ((text.drop start).take C)).length
              ≤ ((text.drop start).take C).length := length_strip_le _
            _ ≤ C := by rw [List.length_take]; exact Nat.min_le_left _ _
        · exact ih _ c h
    · rw [if_neg hs] at hc
      simp at hc

/-- C1: chunking empty or whitespace-only input yields the empty sequence;
otherwise every produced chunk is non-empty, equal to its own strip, and of
length at most `chunk_size`. -/
theorem chunk_text_spec (text : List Char) (C O : Nat) (h : O < C) :
    ((text = [] ∨ ∀ c ∈ text, isSpace c = true) → chunk_text text C O = []) ∧
    (∀ c ∈ chunk_text text C O, c ≠ [] ∧ strip c = c ∧ c.length ≤ C) := by
  constructor
  · intro hw
    have hst : strip text = [] := by
      rcases hw with hw | hw
      · subst hw; rfl
      · exact strip_of_all_space text hw
    rw [chunk_text, if_pos hst]
  · intro c hc
    rw [chunk_text] at hc
    by_cases hst : strip text = []
    · rw [if_pos hst] at hc; simp at hc
    · rw [if_neg hst] at hc
      exact chunkLoop_mem text C O _ _ c hc

theorem chunk_text_spec_witness :
    (1 : Nat) < 2 ∧
    chunk_text [' ', ' '] 2 1 = [] ∧
    (['a', 'b'] ≠ [] ∧ strip ['a', 'b'] = ['a', 'b'] ∧ List.length ['a', 'b'] ≤ 2) := by
  refine ⟨by decide, ?_, ?_⟩
  · exact (chunk_text_spec [' ', ' '] 2 1 (by decide)).1 (Or.inr (by decide))
  · exact (chunk_text_spec ['a', 'b', 'c'] 2 1 (by decide)).2 ['a', 'b'] (by decide)

theorem strip_window_of_no_space (text : List Char)
    (hsp : ∀ c ∈ text, isSpace c = false) (start C : Nat) :
    strip ((text.drop start).take C) = (text.drop start).take C :=
  strip_of_no_space _ (fun c hc =>
    hsp c (List.mem_of_mem_drop (List.mem_of_mem_take hc)))

theorem window_ne_nil (text : List Char) (start C : Nat)
    (hs : start < text.length) (hC : 0 < C) : (text.drop start).take C ≠ [] := by
  have hl : 0 < ((text.drop start).take C).length := by
    rw [List.length_take, List.length_drop]
    omega
  exact List.ne_nil_of_length_pos hl

theorem chunkLoop_drop_flatten (text : List Char) (C O : Nat) (hO : O < C)
    (hsp : ∀ c ∈ text, isSpace c = false) :
    ∀ fuel start, start < text.length → text.length - start ≤ fuel →
      ((chunkLoop text C O fuel start).map (List.drop O)).flatten =
        text.drop (start + O) := by
  intro fuel
  induction fuel with
  | zero => intro start hs hf; omega
  | succ f ih =>
    intro start hs hf
    rw [chunkLoop, if_pos hs]
    simp only
    rw [strip_window_of_no_space text hsp start C,
      if_neg (window_ne_nil text start C hs (by omega))]
    rw [List.map_cons, List.flatten_cons]
    have hw : List.drop O ((text.drop start).take C) =
        (text.drop (start + O)).take (C - O) := by
      rw [List.drop_take, List.drop_drop]
    by_cases hs2 : start + (C - O) < text.length
    · have hrec := ih (start + (C - O)) hs2 (by omega)
      rw [hrec, hw]
      have hdd : text.drop (start + (C - O) + O) =
          List.drop (C - O) (text.drop (start + O)) := by
        rw [List.drop_drop]
        congr 1
        omega
      rw [hdd, List.take_append_drop]
    · rw [chunkLoop_of_ge text C O f _ hs2]
      simp only [List.map_nil, List.flatten_nil, List.append_nil]
      rw [hw]
      apply List.take_of_length_le
      rw [List.length_drop]
      omega

/-- C2 (amended): for whitespace-free text (where trimming is the identity and
no window is dropped) and `overlap < chunk_size`, concatenating the first chunk
with every later chunk minus its leading `overlap` characters reconstructs the
text exactly. -/
theorem chunk_text_reassemble (text : List Char) (C O : Nat) (hO : O < C)
    (hsp : ∀ c ∈ text, isSpace c = false) :
    reassemble O (chunk_text text C O) = text := by
  cases text with
  | nil => rfl
  | cons a t =>
    have hsp' := hsp
    have hne : strip (a :: t) ≠ [] := by
      rw [strip_of_no_space _ hsp]
      simp
    rw [chunk_text, if_neg hne]
    have hlen : 0 < (a :: t).length := by simp
    rw [show (a :: t).length = t.length + 1 from by simp]
    rw [chunkLoop, if_pos (by simp)]
    simp only
    rw [strip_window_of_no_space _ hsp 0 C, List.drop_zero,
      if_neg (by simpa using window_ne_nil (a :: t) 0 C (by simp) (by omega))]
    rw [reassemble]
    by_cases hs2 : 0 + (C - O) < (a :: t).length
    · have := chunkLoop_drop_flatten (a :: t) C O hO hsp t.length (0 + (C - O))
        hs2 (by simp at hs2 ⊢; omega)
      rw [this]
      have hco : 0 + (C - O) + O = C := by omega
      rw [hco, List.take_append_drop]
    · rw [chunkLoop_of_ge (a :: t) C O t.length _ (by simp at hs2 ⊢; omega)]
      simp only [List.map_nil, List.flatten_nil, List.append_nil]
      apply List.take_of_length_le
      simp at hs2 ⊢
      omega

/-- C2 as stated fails: on text `"ab cd"` with `chunk_size = 3`, `overlap = 1`,
trimming of window edges also deletes interior whitespace, so the reassembled
string differs from the whole-text strip. -/
theorem chunk_text_reassemble_counterexample :
    reassemble 1 (chunk_text ['a', 'b', ' ', 'c', 'd'] 3 1) ≠
      strip ['a', 'b', ' ', 'c', 'd'] := by decide

theorem chunk_text_reassemble_witness :
    reassemble 1 (chunk_text ['a', 'b', 'c', 'd', 'e'] 3 1) =
      ['a', 'b', 'c', 'd', 'e'] :=
  chunk_text_reassemble ['a', 'b', 'c', 'd', 'e'] 3 1 (by decide) (by decide)

/-- C9: with `overlap < chunk_size` the chunking loop terminates on every finite
text: each iteration advances the window start by the positive stride
`chunk_size − overlap`, and `text.length` iterations always suffice — any two
fuel budgets covering the remaining length produce the same chunk sequence. -/
theorem chunk_text_terminates (text : List Char) (C O : Nat) (h : O < C) :
    (∀ fuel start, start < text.length →
      chunkLoop text C O (fuel + 1) start =
        (if strip ((text.drop start).take C) = [] then
          chunkLoop text C O fuel (start + (C - O))
        else strip ((text.drop start).take C) ::
          chunkLoop text C O fuel (start + (C - O))) ∧
      start < start + (C - O)) ∧
    (∀ f₁ f₂ start, text.length - start ≤ f₁ → text.length - start ≤ f₂ →
      chunkLoop text C O f₁ start = chunkLoop text C O f₂ start) := by
  constructor
  · intro fuel start hs
    constructor
    · rw [chunkLoop, if_pos hs]
    · omega
  · intro f₁
    induction f₁ with
    | zero =>
      intro f₂ start h1 h2
      rw [chunkLoop_of_ge text C O 0 start (by omega),
        chunkLoop_of_ge text C O f₂ start (by omega)]
    | succ f ih =>
      intro f₂ start h1 h2
      by_cases hs : start < text.length
      · cases f₂ with
        | zero => omega
        | succ f₂' =>
          rw [chunkLoop, chunkLoop, if_pos hs, if_pos hs]
          simp only
          rw [ih f₂' (start + (C - O)) (by omega) (by omega)]
      · rw [chunkLoop_of_ge text C O _ start hs, chunkLoop_of_ge text C O f₂ start hs]

theorem chunk_text_terminates_witness :
    chunkLoop ['a', 'b', 'c'] 2 1 3 0 = chunkLoop ['a', 'b', 'c'] 2 1 7 0 :=
  (chunk_text_terminates ['a', 'b', 'c'] 2 1 (by decide)).2 3 7 0
    (by decide) (by decide)

/-- Metadata persisted with each chunk by `ChromaVectorDB.add_documents`
(src/RAG/vector_database.py lines 96-103). -/
structure DocMetadata where
  source_type : List Char
  source_name : List Char
  chunk_index : Nat
  timestamp : List Char
deriving DecidableEq

/-- A record persisted in the ChromaDB collection. -/
structure StoredRecord where
  id : List Char
  document : List Char
  embedding : List ℚ
  metadata : DocMetadata
deriving DecidableEq

/-- The id format of `add_documents`:
source type, source name, chunk index and the 8-char random hex suffix, joined
by underscores; the random suffix is supplied by the environment parameter
`uuid`. -/
def docId (source_type source_name : List Char) (i : Nat) (suffix : List Char) :
    List Char :=
  source_type ++ ['_'] ++ source_name ++ ['_'] ++ (Nat.repr i).toList ++ ['_'] ++ suffix

/-- The `for i, chunk in enumerate(text_chunks)` loop of
`ChromaVectorDB.add_documents` (src/RAG/vector_database.py lines 76-106):
blank chunks are skipped, a chunk whose embedding fails (`embed` returns
`none`, as `generate_embedding` does on a remote error) is skipped, every
other chunk is persisted; the loop always continues with the next chunk. -/
def addLoop (embed : List Char → Option (List ℚ)) (uuid : Nat → List Char)
    (now source_type source_name : List Char) :
    Nat → List (List Char) → List StoredRecord
  | _, [] => []
  | i, chunk :: rest =>
    if strip chunk = [] then
      addLoop embed uuid now source_type source_name (i + 1) rest
    else
      match embed chunk with
      | none => addLoop embed uuid now source_type source_name (i + 1) rest
      | some e =>
        { id := docId source_type source_name i (uuid i),
          document := chunk,
          embedding := e,
          metadata := { source_type := source_type, source_name := source_name,
                        chunk_index := i, timestamp := now } } ::
          addLoop embed uuid now source_type source_name (i + 1) rest

/-- Model of `ChromaVectorDB.add_documents(text_chunks, source_type, source_name)`
(src/RAG/vector_database.py lines 65-131).  Returns the success flag and the
collection state afterwards; `none` models an uninitialized collection. -/
def add_documents (embed : List Char → Option (List ℚ)) (uuid : Nat → List Char)
    (now : List Char) (collection : Option (List StoredRecord))
    (text_chunks : List (List Char)) (source_type source_name : List Char) :
    Bool × Option (List StoredRecord) :=
  match collection with
  | none => (false, none)
  | some coll =>
    if text_chunks = [] then (false, some coll)
    else
      let recs := addLoop embed uuid now source_type source_name 0 text_chunks
      if 0 < recs.length then (true, some (coll ++ recs))
      else (false, some (coll ++ recs))

/-- Model of `ChromaVectorDB.delete_all_documents` (src/RAG/vector_database.py lines
199-216).  Returns the success flag, the collection afterwards, and how many
deletions were performed. -/
def delete_all_documents (collection : Option (List StoredRecord)) :
    Bool × Option (List StoredRecord) × Nat :=
  match collection with
  | none => (false, none, 0)
  | some coll =>
    let ids := coll.map (fun r => r.id)
    if ids = [] then (true, some coll, 0)
    else (true, some (coll.filter (fun r => !(ids.contains r.id))), ids.length)

/-- One entry of the result list of `ChromaVectorDB.similarity_search`
(src/RAG/vector_database.py lines 163-174); `metadata = none` models the
empty-dict default used when the reply carries no metadatas. -/
structure SearchResult where
  document : List Char
  metadata : Option DocMetadata
  similarity_score : Option ℚ
  distance : Option ℚ
deriving DecidableEq

/-- The reply of `collection.query` consumed by `similarity_search`: the
first (and only) row of `documents`, plus the optional `metadatas` and
`distances` rows. -/
structure ChromaQueryReply where
  documents : List (List Char)
  metadatas : Option (List DocMetadata)
  distances : Option (List ℚ)

/-- Python `1 - results["distances"][0][i] if results["distances"] else None` together
with the raw distance; the outer `none` models an IndexError escaping to the
handler that returns `[]`. -/
def simOf (dists : Option (List ℚ)) (i : Nat) : Option (Option ℚ × Option ℚ) :=
  match dists with
  | none => some (none, none)
  | some ds =>
    match ds[i]? with
    | none => none
    | some d => some (some (1 - d), some d)

/-- Python `results["metadatas"][0][i] if results["metadatas"] else dict()`, where
the source writes an empty-dict literal in place of `dict()`; same IndexError
convention. -/
def mdOf (metas : Option (List DocMetadata)) (i : Nat) :
    Option (Option DocMetadata) :=
  match metas with
  | none => some none
  | some ms =>
    match ms[i]? with
    | none => none
    | some m => some (some m)

/-- The `for i, doc in enumerate(results["documents"][0])` loop of
`similarity_search`; `none` propagates an exception to the outer handler. -/
def buildLoop (metas : Option (List DocMetadata)) (dists : Option (List ℚ)) :
    Nat → List (List Char) → Option (List SearchResult)
  | _, [] => some []
  | i, doc :: rest =>
    match simOf dists i, mdOf metas i, buildLoop metas dists (i + 1) rest with
    | some sd, some m, some tail =>
      some ({ document := doc, metadata := m,
              similarity_score := sd.1, distance := sd.2 } :: tail)
    | _, _, _ => none

/-- Model of `ChromaVectorDB.similarity_search` (src/RAG/vector_database.py lines
133-180); `query_embedding = none` models a failed query embedding, `reply`
is the reply of the database to `collection.query`. -/
def similarity_search (initialized : Bool) (query_embedding : Option (List ℚ))
    (reply : ChromaQueryReply) : List SearchResult :=
  if initialized then
    match query_embedding with
    | none => []
    | some _ =>
      if reply.documents = [] then []
      else
        match buildLoop reply.metadatas reply.distances 0 reply.documents with
        | none => []
        | some rs => rs
  else []

theorem simOf_spec (dists : Option (List ℚ)) (i : Nat)
    (sd : Option ℚ × Option ℚ) (h : simOf dists i = some sd) :
    ∀ d, sd.2 = some d → sd.1 = some (1 - d) := by
  intro d hd
  cases dists with
  | none =>
    rw [simOf] at h
    cases h
    simp at hd
  | some ds =>
    rw [simOf] at h
    cases hi : ds[i]? with
    | none => rw [hi] at h; cases h
    | some d0 =>
      rw [hi] at h
      cases h
      simp at hd
      subst hd
      rfl

theorem buildLoop_sim (metas : Option (List DocMetadata))
    (dists : Option (List ℚ)) :
    ∀ docs i rs, buildLoop metas dists i docs = some rs →
      ∀ r ∈ rs, ∀ d, r.distance = some d →
        r.similarity_score = some (1 - d) := by
  intro docs
  induction docs with
  | nil =>
    intro i rs h r hr
    rw [buildLoop] at h
    cases h
    simp at hr
  | cons doc rest ih =>
    intro i rs h r hr d hd
    rw [buildLoop] at h
    cases hsd : simOf dists i with
    | none => rw [hsd] at h; cases h
    | some sd =>
      cases hmd : mdOf metas i with
      | none => rw [hsd, hmd] at h; cases h
      | some m =>
        cases hrec : buildLoop metas dists (i + 1) rest with
        | none => rw [hsd, hmd, hrec] at h; cases h
        | some tail =>
          rw [hsd, hmd, hrec] at h
          cases h
          rcases List.mem_cons.mp hr with h | h
          · subst h
            simp only at hd
            exact simOf_spec dists i sd hsd d hd
          · exact ih (i + 1) tail hrec r h d hd

/-- C3: if embedding the query fails, `similarity_search` returns the empty
list; otherwise every returned result whose distance is present carries
`similarity_score = 1 − distance`. -/
theorem similarity_search_spec (reply : ChromaQueryReply)
    (emb : Option (List ℚ)) :
    similarity_search true none reply = [] ∧
    ∀ r ∈ similarity_search true emb reply, ∀ d, r.distance = some d →
      r.similarity_score = some (1 - d) := by
  constructor
  · rfl
  · intro r hr d hd
    cases emb with
    | none => simp [similarity_search] at hr
    | some e =>
      rw [similarity_search, if_pos rfl] at hr
      by_cases hdoc : reply.documents = []
      · rw [if_pos hdoc] at hr; simp at hr
      · rw [if_neg hdoc] at hr
        cases hb : buildLoop reply.metadatas reply.distances 0 reply.documents with
        | none => rw [hb] at hr; simp at hr
        | some rs =>
          rw [hb] at hr
          exact buildLoop_sim reply.metadatas reply.distances
            reply.documents 0 rs hb r hr d hd

theorem similarity_search_spec_witness :
    (⟨['x'], none, some (1 - 0 : ℚ), some 0⟩ : SearchResult) ∈
      similarity_search true (some [1]) ⟨[['x']], none, some [0]⟩ ∧
    (⟨['x'], none, some (1 - 0 : ℚ), some 0⟩ : SearchResult).similarity_score =
      some (1 - 0) := by
  have hm : (⟨['x'], none, some (1 - 0 : ℚ), some 0⟩ : SearchResult) ∈
      similarity_search true (some [1]) ⟨[['x']], none, some [0]⟩ :=
    List.Mem.head _
  exact ⟨hm, (similarity_search_spec ⟨[['x']], none, some [0]⟩ (some [1])).2
    _ hm 0 rfl⟩

/-- C5: an embedding failure on one chunk does not stop ingestion — the loop
splits around the failed chunk and every later chunk is still attempted and
persisted — and `add_documents` reports success exactly when at least one
chunk was persisted. -/
theorem add_documents_fail_soft (embed : List Char → Option (List ℚ))
    (uuid : Nat → List Char) (now st sn : List Char) (c : List Char)
    (hc : embed c = none) :
    (∀ i xs ys, addLoop embed uuid now st sn i (xs ++ c :: ys) =
      addLoop embed uuid now st sn i xs ++
        addLoop embed uuid now st sn (i + xs.length + 1) ys) ∧
    (∀ coll chunks, chunks ≠ [] →
      ((add_documents embed uuid now (some coll) chunks st sn).1 = true ↔
        addLoop embed uuid now st sn 0 chunks ≠ [])) := by
  constructor
  · intro i xs
    induction xs generalizing i with
    | nil =>
      intro ys
      conv_lhs => rw [List.nil_append, addLoop]
      by_cases hb : strip c = []
      · rw [if_pos hb]
        simp [addLoop]
      · rw [if_neg hb, hc]
        simp [addLoop]
    | cons x xs ih =>
      intro ys
      have hidx : i + 1 + xs.length + 1 = i + (x :: xs).length + 1 := by
        simp only [List.length_cons]
        omega
      rw [List.cons_append, addLoop, addLoop]
      by_cases hb : strip x = []
      · rw [if_pos hb, if_pos hb, ih (i + 1) ys, hidx]
      · rw [if_neg hb, if_neg hb]
        cases hex : embed x with
        | none => rw [ih (i + 1) ys, hidx]
        | some e => rw [List.cons_append, ih (i + 1) ys, hidx]
  · intro coll chunks hne
    rw [add_documents, if_neg hne]
    simp only
    by_cases hl : 0 < (addLoop embed uuid now st sn 0 chunks).length
    · rw [if_pos hl]
      simp only [true_iff]
      intro hnil
      rw [hnil] at hl
      simp at hl
    · rw [if_neg hl]
      have h0 : (addLoop embed uuid now st sn 0 chunks).length = 0 := by omega
      simp only [Bool.false_eq_true, false_iff, ne_eq, not_not]
      exact List.eq_nil_of_length_eq_zero h0

theorem add_documents_fail_soft_witness :
    (fun s => if s = ['b'] then none else some [(1 : ℚ)]) ['b'] = none ∧
    addLoop (fun s => if s = ['b'] then none else some [(1 : ℚ)])
        (fun _ => ['u']) ['t'] ['p'] ['d'] 0 ([['a']] ++ ['b'] :: [['c']]) =
      addLoop (fun s => if s = ['b'] then none else some [(1 : ℚ)])
        (fun _ => ['u']) ['t'] ['p'] ['d'] 0 [['a']] ++
      addLoop (fun s => if s = ['b'] then none else some [(1 : ℚ)])
        (fun _ => ['u']) ['t'] ['p'] ['d'] (0 + List.length [['a']] + 1) [['c']] := by
  refine ⟨rfl, ?_⟩
  exact (add_documents_fail_soft (fun s => if s = ['b'] then none else some [(1 : ℚ)])
    (fun _ => ['u']) ['t'] ['p'] ['d'] ['b'] rfl).1 0 [['a']] [['c']]

/-- C8: clearing an already-empty initialized collection succeeds, performs
zero deletions, and leaves the collection unchanged. -/
theorem delete_all_documents_empty :
    delete_all_documents (some []) = (true, some [], 0) := rfl

/-- State set up by `WebSearcher.__init__` (src/RAG/web_search.py lines 9-11). -/
structure WebSearcher where
  api_key : Option (List Char)

/-- Python `self.enabled = api_key is not None`. -/
def WebSearcher.enabled (w : WebSearcher) : Bool := w.api_key.isSome

/-- One entry of the `organic` array of the Serper reply; each field may be absent
(`result.get(..., "")` supplies the default). -/
structure OrganicEntry where
  title : Option (List Char)
  snippet : Option (List Char)
  link : Option (List Char)
deriving DecidableEq

/-- The HTTP reply of `requests.post` to the Serper API: a status code and,
when the JSON body has an `organic` key, its entries. -/
structure SerperReply where
  status_code : Nat
  organic : Option (List OrganicEntry)
deriving DecidableEq

/-- One item of the result list of `WebSearcher.search`
(src/RAG/web_search.py lines 37-44). -/
structure WebItem where
  title : List Char
  snippet : List Char
  link : List Char
  source : List Char
deriving DecidableEq

/-- The dict built for each organic result. -/
def mkWebItem (e : OrganicEntry) : WebItem :=
  { title := e.title.getD [], snippet := e.snippet.getD [],
    link := e.link.getD [], source := "web_search".toList }

/-- Model of `WebSearcher.search(query, num_results)` (src/RAG/web_search.py lines
13-53).  `net` is the outcome of the HTTP POST (`Except.error` models a raised
request exception); the second component records whether a network call was
attempted. -/
def WebSearcher.search (w : WebSearcher) (net : Except Unit SerperReply) :
    List WebItem × Bool :=
  if w.enabled then
    match net with
    | .error _ => ([], true)
    | .ok reply =>
      if reply.status_code = 200 then
        ((reply.organic.getD []).map mkWebItem, true)
      else ([], true)
  else ([], false)

/-- C7: a `WebSearcher` built with no API key is disabled, and its `search`
returns the empty sequence without attempting a network call, whatever the
network would have answered. -/
theorem webSearcher_disabled :
    (WebSearcher.mk none).enabled = false ∧
    ∀ net, (WebSearcher.mk none).search net = ([], false) := by
  constructor
  · rfl
  · intro net
    rfl

/-- C10 (implicit): every item returned by `WebSearcher.search` is built from
one organic entry, with `title`, `snippet` and `link` defaulting to the empty
string when absent, and always carries the fourth field
`source = "web_search"`. -/
theorem search_items_tagged (w : WebSearcher) (net : Except Unit SerperReply) :
    ∀ r ∈ (w.search net).1, r.source = "web_search".toList ∧
      ∃ e, r = mkWebItem e ∧ r.title = e.title.getD [] ∧
        r.snippet = e.snippet.getD [] ∧ r.link = e.link.getD [] := by
  intro r hr
  have he : ∃ e, r = mkWebItem e := by
    by_cases hw : w.enabled
    · cases net with
      | error u => simp [WebSearcher.search.eq_def, hw] at hr
      | ok reply =>
        by_cases hst : reply.status_code = 200
        · have hr' : r ∈ List.map mkWebItem (reply.organic.getD []) := by
            simpa [WebSearcher.search.eq_def, hw, hst] using hr
          rcases List.mem_map.mp hr' with ⟨e, _, heq⟩
          exact ⟨e, heq.symm⟩
        · simp [WebSearcher.search.eq_def, hw, hst] at hr
    · simp [WebSearcher.search.eq_def, hw] at hr
  rcases he with ⟨e, heq⟩
  subst heq
  exact ⟨rfl, e, rfl, rfl, rfl, rfl⟩

theorem search_items_tagged_witness :
    mkWebItem ⟨none, none, none⟩ ∈
      ((WebSearcher.mk (some ['k'])).search
        (.ok ⟨200, some [⟨none, none, none⟩]⟩)).1 ∧
    (mkWebItem ⟨none, none, none⟩).source = "web_search".toList := by
  have hm : mkWebItem ⟨none, none, none⟩ ∈
      ((WebSearcher.mk (some ['k'])).search
        (.ok ⟨200, some [⟨none, none, none⟩]⟩)).1 :=
    List.Mem.head _
  exact ⟨hm, (search_items_tagged (WebSearcher.mk (some ['k']))
    (.ok ⟨200, some [⟨none, none, none⟩]⟩) _ hm).1⟩

/-- Origin tag of a source descriptor (`"type": "vector_db" | "web_search"`). -/
inductive SourceTag
  | vector_db
  | web_search
deriving DecidableEq

/-- A source descriptor of `RAGSystem.retrieve_context`
(src/RAG/rag_system.py lines 74-80 and 95-101): vector entries carry the
similarity, web entries carry the link. -/
inductive SourceEntry
  | vectorDb (source : List Char) (similarity : Option ℚ)
  | webSearch (source : List Char) (link : List Char)
deriving DecidableEq

def SourceEntry.tag : SourceEntry → SourceTag
  | .vectorDb _ _ => .vector_db
  | .webSearch _ _ => .web_search

/-- The source descriptor built from one vector result:
`result["metadata"].get("source_name", "Unknown")` plus the similarity. -/
def vecSourceOf (r : SearchResult) : SourceEntry :=
  .vectorDb (match r.metadata with
    | some m => m.source_name
    | none => "Unknown".toList) r.similarity_score

/-- The context part built from one web result: the literal pieces of the
Python f-string around the interpolated title and snippet fields. -/
def webContextPart (r : WebItem) : List Char :=
  "Web Result: ".toList ++ r.title ++ " - ".toList ++ r.snippet

def webSourceOf (r : WebItem) : SourceEntry := .webSearch r.title r.link

/-- The separator of `"\n\n".join(context_parts)`. -/
def blankSep : List Char := ['\n', '\n']

/-- The aggregate returned by `retrieve_context`. -/
structure RetrievalResult where
  context : List Char
  sources : List SourceEntry
  vector_results : Nat
  web_results : Nat
deriving DecidableEq

/-- The web-search arm of `retrieve_context` (src/RAG/rag_system.py lines
83-85): the web searcher runs only if requested, configured and enabled. -/
def webResultsOf (include_web_search : Bool) (web_searcher : Option WebSearcher)
    (net : Except Unit SerperReply) : List WebItem :=
  if include_web_search then
    match web_searcher with
    | some w => if w.enabled then (w.search net).1 else []
    | none => []
  else []

/-- Model of `RAGSystem.retrieve_context(query, include_web_search)`
(src/RAG/rag_system.py lines 60-108); `vector_results` is the outcome of the
vector-database similarity search, `net` feeds the optional web search. -/
def retrieve_context (vector_results : List SearchResult)
    (include_web_search : Bool) (web_searcher : Option WebSearcher)
    (net : Except Unit SerperReply) : RetrievalResult :=
  let web_results := webResultsOf include_web_search web_searcher net
  { context := List.intercalate blankSep
      (vector_results.map (fun r => r.document) ++ web_results.map webContextPart)
    sources := vector_results.map vecSourceOf ++ web_results.map webSourceOf
    vector_results := vector_results.length
    web_results := web_results.length }

theorem intercalate_cons_cons (sep x y : List Char) (t : List (List Char)) :
    List.intercalate sep (x :: y :: t) = x ++ sep ++ List.intercalate sep (y :: t) := by
  simp [List.intercalate, List.intersperse, List.append_assoc]

theorem intercalate_append_ne_nil (sep : List Char) (xs ys : List (List Char))
    (hx : xs ≠ []) (hy : ys ≠ []) :
    List.intercalate sep (xs ++ ys) =
      List.intercalate sep xs ++ sep ++ List.intercalate sep ys := by
  induction xs with
  | nil => cases hx rfl
  | cons x xs ih =>
    cases xs with
    | nil =>
      cases ys with
      | nil => cases hy rfl
      | cons y t =>
        rw [List.singleton_append, intercalate_cons_cons]
        congr 2
        simp [List.intercalate, List.intersperse]
    | cons x2 xs2 =>
      simp only [List.cons_append]
      rw [intercalate_cons_cons sep x x2 (xs2 ++ ys),
        intercalate_cons_cons sep x x2 xs2]
      have ih' := ih (by simp)
      simp only [List.cons_append] at ih'
      rw [ih']
      simp [List.append_assoc]

/-- C4: when both vector and web results are present, the context string is the
blank-line join of all vector-result documents strictly followed by all web
entries, and the sources list is the vector-tagged descriptors followed by the
web-tagged ones, in the same order. -/
theorem retrieve_context_ordering (vrs : List SearchResult) (w : WebSearcher)
    (net : Except Unit SerperReply) (hv : vrs ≠ [])
    (hen : w.enabled = true) (hw : (w.search net).1 ≠ []) :
    (retrieve_context vrs true (some w) net).context =
      List.intercalate blankSep (vrs.map (fun r => r.document)) ++ blankSep ++
        List.intercalate blankSep ((w.search net).1.map webContextPart) ∧
    (retrieve_context vrs true (some w) net).sources =
      vrs.map vecSourceOf ++ (w.search net).1.map webSourceOf ∧
    (∀ s ∈ vrs.map vecSourceOf, s.tag = SourceTag.vector_db) ∧
    (∀ s ∈ (w.search net).1.map webSourceOf, s.tag = SourceTag.web_search) := by
  have hweb : webResultsOf true (some w) net = (w.search net).1 := by
    simp [webResultsOf, hen]
  refine ⟨?_, ?_, ?_, ?_⟩
  · simp only [retrieve_context, hweb]
    exact intercalate_append_ne_nil blankSep _ _
      (by simpa using hv) (by simpa using hw)
  · simp only [retrieve_context, hweb]
  · intro s hs
    rcases List.mem_map.mp hs with ⟨r, _, heq⟩
    subst heq
    rfl
  · intro s hs
    rcases List.mem_map.mp hs with ⟨r, _, heq⟩
    subst heq
    rfl

theorem retrieve_context_ordering_witness :
    (retrieve_context [⟨['d'], none, none, none⟩] true (some ⟨some ['k']⟩)
        (.ok ⟨200, some [⟨some ['t'], some ['s'], some ['l']⟩]⟩)).sources =
      List.map vecSourceOf [⟨['d'], none, none, none⟩] ++
        List.map webSourceOf ((WebSearcher.mk (some ['k'])).search
          (.ok ⟨200, some [⟨some ['t'], some ['s'], some ['l']⟩]⟩)).1 :=
  (retrieve_context_ordering [⟨['d'], none, none, none⟩] ⟨some ['k']⟩
    (.ok ⟨200, some [⟨some ['t'], some ['s'], some ['l']⟩]⟩)
    (by decide) rfl (by decide)).2.1

/-- The aggregate returned by `generate_response`. -/
structure GenerationResult where
  response : List Char
  context_used : List Char
  sources : List SourceEntry
  vector_results_count : Nat
  web_results_count : Nat
deriving DecidableEq

/-- The canned reply of the `except` branch of `generate_response`
(src/RAG/rag_system.py lines 142-150). -/
def fallbackResponse : GenerationResult :=
  { response := ("I apologize, but I encountered an error generating " ++
      "a response. Please try again.").toList
    context_used := []
    sources := []
    vector_results_count := 0
    web_results_count := 0 }

/-- Model of `RAGSystem._build_system_prompt(context, query)`
(src/RAG/rag_system.py lines 152-169). -/
def build_system_prompt (context query : List Char) : List Char :=
  ("You are a helpful AI assistant with access to a knowledge base " ++
    "and web search.\n\nCONTEXT FROM KNOWLEDGE BASE:\n").toList ++ context ++
  ("\n\nINSTRUCTIONS:\n1. Use the provided context to answer the " ++
    "user\x27s question accurately\n2. If the context contains relevant " ++
    "information, prioritize it in your response\n3. If the context " ++
    "doesn\x27t fully answer the question, provide general knowledge " ++
    "while noting limitations\n4. Be clear about what information comes " ++
    "from the knowledge base vs general knowledge\n5. Provide specific " ++
    "and helpful answers\n\nUSER QUESTION: ").toList ++ query ++
  "\n\nPlease provide a comprehensive response based on the available context.".toList

/-- Model of `RAGSystem.generate_response(query, include_web_search)`
(src/RAG/rag_system.py lines 110-150): `retrieval` is the outcome of the
`retrieve_context` step and `chat` the outcome of the chat-completion call on
the built prompt; `Except.error` models a raised exception, which the single
`try/except` converts to `fallbackResponse`. -/
def generate_response (retrieval : Except Unit RetrievalResult)
    (chat : List Char → Except Unit (List Char)) (query : List Char) :
    GenerationResult :=
  match retrieval with
  | .error _ => fallbackResponse
  | .ok rr =>
    match chat (build_system_prompt rr.context query) with
    | .error _ => fallbackResponse
    | .ok text =>
      { response := text
        context_used := rr.context
        sources := rr.sources
        vector_results_count := rr.vector_results
        web_results_count := rr.web_results }

/-- C6: `generate_response` never propagates a failure — if retrieval raises or
the chat-completion call raises, it returns the fixed apologetic response,
whose context is empty, whose sources list is empty and whose vector and web
counts are zero. -/
theorem generate_response_fail_soft (retrieval : Except Unit RetrievalResult)
    (chat : List Char → Except Unit (List Char)) (query : List Char) :
    ((retrieval = .error () ∨ ∃ rr, retrieval = .ok rr ∧
        chat (build_system_prompt rr.context query) = .error ()) →
      generate_response retrieval chat query = fallbackResponse) ∧
    fallbackResponse.context_used = [] ∧ fallbackResponse.sources = [] ∧
    fallbackResponse.vector_results_count = 0 ∧
    fallbackResponse.web_results_count = 0 := by
  refine ⟨?_, rfl, rfl, rfl, rfl⟩
  intro h
  rcases h with h | ⟨rr, hrr, hchat⟩
  · subst h
    rfl
  · subst hrr
    rw [generate_response, hchat]

theorem generate_response_fail_soft_witness :
    generate_response (.error ()) (fun _ => .error ()) [] = fallbackResponse :=
  (generate_response_fail_soft (.error ()) (fun _ => .error ()) []).1 (Or.inl rfl)

end RAG
